import Mathlib

/-!
Verification of the nmcfg network-map translator and the ipnlocal backend
orchestrator state machine of this repository.

The translator (`cidrIsSubnet`, `haSubnetRouterAllowedIPs`, `WGCfg`) is a
shallow embedding of the Go package nmcfg. Machine addresses and keys are
modelled as `Nat` values; `netip.Prefix` is modelled by `Cidr` (an address
value, a prefix bit length, and an address-family marker, which is all the
translator inspects: `Bits() == 0`, `IsSingleIP()`, and equality).

The backend orchestrator (`start`, `logout`, `editPrefs`, `netmapHandler`,
`setWgengineStatus`) is modelled from the natural-language specification of
the repository, checked against the repository's own state-machine test
(`TestStateMachine`): the Go implementation of ipnlocal.LocalBackend is not
part of the sources at hand, only its tests are.
-/

/-! ## Translator data model (from package nmcfg) -/

/-- Model of `netip.Prefix`: an address value, the prefix bit length, and
whether the address is IPv6 (single-IP means `/32` for IPv4, `/128` for IPv6). -/
structure Cidr where
  addr : Nat
  bits : Nat
  v6 : Bool
deriving DecidableEq, Repr

/-- `netip.Prefix.IsSingleIP`: the prefix covers exactly one address. -/
def Cidr.isSingleIP (c : Cidr) : Bool :=
  c.bits = (if c.v6 then 128 else 32)

/-- Model of `tailcfg.NodeView`: the fields the translator reads. -/
structure NodeView where
  id : Nat
  stableID : String
  key : Nat
  discoKey : Nat
  homeDERP : Nat
  isWireGuardOnly : Bool
  expired : Bool
  isJailed : Bool
  v4MasqAddr : Option Nat
  v6MasqAddr : Option Nat
  addresses : List Cidr
  allowedIPs : List Cidr
  primaryRoutes : List Cidr
  tags : List String
  capMap : List String
deriving DecidableEq, Repr

/-- `NodeView.HasCap`: membership in the node's capability map. -/
def NodeView.hasCap (n : NodeView) (c : String) : Bool :=
  decide (c ∈ n.capMap)

/-- `tailcfg.CapabilityDataPlaneAuditLogs` (opaque capability name). -/
def capabilityDataPlaneAuditLogs : String :=
  "https://tailscale.com/cap/data-plane-audit-logs"

/-- `tailcfg.NodeAttrLogExitFlows` (opaque capability name). -/
def nodeAttrLogExitFlows : String := "log-exit-flows"

/-- `cidrIsSubnet` (nmcfg): cidr is a non-default-route subnet exported by
node that is not one of its own self addresses. -/
def cidrIsSubnet (node : NodeView) (cidr : Cidr) : Bool :=
  if cidr.bits = 0 then false
  else if !cidr.isSingleIP then true
  else decide (cidr ∉ node.addresses)

/-- The shared-tag check inside `haSubnetRouterAllowedIPs`: some tag of the
peer also occurs among the other node's tags. -/
def sharesTag (peerTags otherTags : List String) : Bool :=
  peerTags.any (fun pt => decide (pt ∈ otherTags))

/-- The inner loop of `haSubnetRouterAllowedIPs`: concatenation, in order, of
the `PrimaryRoutes` of every other peer that is not the peer itself, has a
non-empty `PrimaryRoutes` set, and shares a tag with the peer. -/
def haCandidateRoutes (peer : NodeView) : List NodeView → List Cidr
  | [] => []
  | o :: rest =>
    if o.id = peer.id then haCandidateRoutes peer rest
    else if o.primaryRoutes = [] then haCandidateRoutes peer rest
    else if ¬ sharesTag peer.tags o.tags then haCandidateRoutes peer rest
    else o.primaryRoutes ++ haCandidateRoutes peer rest

/-- The `seen` map of `haSubnetRouterAllowedIPs`: keep the routes not yet
seen, marking each kept route as seen. -/
def dedupRoutes (seen : List Cidr) : List Cidr → List Cidr
  | [] => []
  | r :: rest =>
    if r ∈ seen then dedupRoutes seen rest
    else r :: dedupRoutes (r :: seen) rest

/-- `haSubnetRouterAllowedIPs` (nmcfg): additional AllowedIPs for HA subnet
router site-to-site scenarios. -/
def haSubnetRouterAllowedIPs (selfNode : Option NodeView) (peer : NodeView)
    (allPeers : List NodeView) : List Cidr :=
  match selfNode with
  | none => []
  | some self =>
    if ¬ self.allowedIPs.any (fun aip => cidrIsSubnet self aip) then []
    else if peer.tags = [] then []
    else dedupRoutes peer.allowedIPs (haCandidateRoutes peer allPeers)

/-! ## Translator output model (wgcfg.Config) -/

/-- `wgcfg.NetworkLogging` parameters; the zero value means disabled. -/
structure NetworkLogging where
  nodeID : Nat := 0
  domainID : Nat := 0
  logExitFlowEnabled : Bool := false
deriving DecidableEq, Repr

/-- The zero `NetworkLogging` value (logging disabled). -/
def NetworkLogging.zero : NetworkLogging := {}

/-- `wgcfg.Peer`: one configured WireGuard peer. -/
structure WGPeer where
  publicKey : Nat
  discoKey : Nat
  v4MasqAddr : Option Nat
  v6MasqAddr : Option Nat
  isJailed : Bool
  allowedIPs : List Cidr
deriving DecidableEq, Repr

/-- `wgcfg.Config`: the translator's output. -/
structure WGConfig where
  privateKey : Nat
  addresses : List Cidr
  networkLogging : NetworkLogging
  peers : List WGPeer
deriving DecidableEq, Repr

/-- `netmap.NetworkMap`: the fields the translator reads. -/
structure NetworkMap where
  selfNode : Option NodeView
  addresses : List Cidr
  peers : List NodeView
  domainAuditLogID : String
deriving DecidableEq, Repr

/-- The network-logging setup block of `WGCfg`: populate the parameters only
when the self node is valid, carries the data-plane audit-log capability,
both audit-log IDs are non-empty, and both parse; on any parse failure leave
the zero value. `parseLogID` stands for `logid.ParsePrivateID`. -/
def wgNetworkLogging (parseLogID : String → Option Nat) (nm : NetworkMap)
    (dataPlaneAuditLogID : NodeView → String) : NetworkLogging :=
  match nm.selfNode with
  | none => NetworkLogging.zero
  | some self =>
    if self.hasCap capabilityDataPlaneAuditLogs
        ∧ dataPlaneAuditLogID self ≠ "" ∧ nm.domainAuditLogID ≠ "" then
      match parseLogID (dataPlaneAuditLogID self), parseLogID nm.domainAuditLogID with
      | some nodeID, some domainID =>
        { nodeID := nodeID, domainID := domainID,
          logExitFlowEnabled := self.hasCap nodeAttrLogExitFlows }
      | _, _ => NetworkLogging.zero
    else NetworkLogging.zero

/-- The per-entry allowed-IP filter of the `WGCfg` peer loop: a default route
is dropped unless the peer is the selected exit node; an entry that
`cidrIsSubnet` classifies as a subnet is dropped unless subnet routes are
allowed. -/
def keepAllowedIP (allowSubnetRoutes : Bool) (exitNode : String)
    (peer : NodeView) (aip : Cidr) : Bool :=
  if aip.bits = 0 ∧ peer.stableID ≠ exitNode then false
  else if cidrIsSubnet peer aip ∧ ¬ allowSubnetRoutes then false
  else true

/-- The allowed-IP list `WGCfg` gives an included peer: the filtered entries,
followed by the HA subnet-router expansion when subnet routes are allowed. -/
def peerAllowedIPs (allowSubnetRoutes : Bool) (exitNode : String)
    (selfNode : Option NodeView) (allPeers : List NodeView) (peer : NodeView) : List Cidr :=
  peer.allowedIPs.filter (keepAllowedIP allowSubnetRoutes exitNode peer)
    ++ (if allowSubnetRoutes then haSubnetRouterAllowedIPs selfNode peer allPeers else [])

/-- The peer-inclusion test of the `WGCfg` loop: skip a peer offering neither
a disco key nor a DERP home nor direct WireGuard, and skip expired peers. -/
def includePeer (peer : NodeView) : Bool :=
  if peer.discoKey = 0 ∧ peer.homeDERP = 0 ∧ ¬ peer.isWireGuardOnly then false
  else if peer.expired then false
  else true

/-- `WGCfg` (nmcfg): the network map's WireGuard configuration, together with
the returned `error` value (modelled as `Option String`). `parseLogID` stands
for `logid.ParsePrivateID` and `dataPlaneAuditLogID` for the corresponding
`NodeView` accessor; both are parameters because their implementations live
outside the translator. -/
def WGCfg (parseLogID : String → Option Nat) (dataPlaneAuditLogID : NodeView → String)
    (pk : Nat) (nm : NetworkMap) (allowSubnetRoutes : Bool)
    (exitNode : String) : WGConfig × Option String :=
  ({ privateKey := pk,
     addresses := nm.addresses,
     networkLogging := wgNetworkLogging parseLogID nm dataPlaneAuditLogID,
     peers := (nm.peers.filter includePeer).map (fun peer =>
       { publicKey := peer.key,
         discoKey := peer.discoKey,
         v4MasqAddr := peer.v4MasqAddr,
         v6MasqAddr := peer.v6MasqAddr,
         isJailed := peer.isJailed,
         allowedIPs := peerAllowedIPs allowSubnetRoutes exitNode nm.selfNode nm.peers peer }) },
   none)

/-! ## Backend orchestrator model

Modelled from the spec: the ipnlocal.LocalBackend implementation is absent
from the sources at hand (only its state-machine test is present), so the
orchestrator below follows the specification's component design — the state
transition table, the lifecycle operations and their notification and
control-session command sequences — with the repository's own
`TestStateMachine` fixing every behaviour it pins down (notification order,
the no-op logout, the expiry handling, the rising-edge engine status). -/

/-- Modelled from the spec: the `Persist` key material embedded in the
preferences (private key, old private key, network-lock key), absent sources
being `types/persist`. Keys are opaque `Nat` values, `0` the zero key. -/
structure Persist where
  privateNodeKey : Nat
  oldPrivateNodeKey : Nat
  networkLockKey : Nat
deriving DecidableEq, Repr

/-- The all-zero key material. -/
def Persist.zero : Persist := ⟨0, 0, 0⟩

/-- Modelled from the spec: the per-profile preferences, restricted to the
fields the verified operations read (`ipn.Prefs` has more). -/
structure Prefs where
  wantRunning : Bool
  loggedOut : Bool
  hostname : String
  persist : Persist
deriving DecidableEq, Repr

/-- Key-material redaction applied to preference values leaving the backend
(notifications and `EditPrefs` results carry no private keys). -/
def stripKeys (p : Prefs) : Prefs := { p with persist := Persist.zero }

/-- `ipn.State`: the derived connection state. -/
inductive ConnState where
  | NoState
  | NeedsLogin
  | NeedsMachineAuth
  | Stopped
  | Starting
  | Running
deriving DecidableEq, Repr

/-- Modelled from the spec: the orchestrator-relevant content of a received
network map — its expiry instant (`0` meaning no expiry) and whether the
self node is machine-authorized. -/
structure NetMap where
  expiry : Int
  machineAuthorized : Bool
deriving DecidableEq, Repr

/-- Modelled from the spec: the mutable state the orchestrator owns. -/
structure BackendState where
  prefs : Prefs
  netmap : Option NetMap
  state : ConnState
  keyExpired : Bool
  engineBlocked : Bool
  haveRelayLink : Bool
  hasSession : Bool
deriving DecidableEq, Repr

/-- `ipn.Notify`: one outbound notification, carrying exactly one of the
optional payloads the verified scenarios exercise. -/
inductive Notify where
  | prefsN (p : Prefs)
  | stateN (st : ConnState)
  | urlN (url : String)
  | loginFinishedN
deriving DecidableEq, Repr

/-- A command issued to the control session (plus `new` for creating a
replacement session handle). -/
inductive CCCall where
  | new
  | login
  | logout
  | pause
  | unpause
  | shutdown
deriving DecidableEq, Repr

/-- The outcome of one orchestrator operation: the successor state, the
notifications emitted (in order), and the control-session commands issued
(in order). -/
structure StepOut where
  after : BackendState
  notifies : List Notify
  calls : List CCCall
deriving DecidableEq, Repr

/-- Modelled from the spec: the state transition table — no map or logged
out gives NeedsLogin; an expired key always gives NeedsLogin; an
unauthorized machine gives NeedsMachineAuth; not wanting to run gives
Stopped; otherwise Starting until the engine reports a relay link, then
Running. -/
def computeState (haveNetmap loggedOut machineAuthorized keyExpired
    wantRunning haveRelayLink : Bool) : ConnState :=
  if ¬ haveNetmap ∨ loggedOut then ConnState.NeedsLogin
  else if keyExpired then ConnState.NeedsLogin
  else if ¬ machineAuthorized then ConnState.NeedsMachineAuth
  else if ¬ wantRunning then ConnState.Stopped
  else if haveRelayLink then ConnState.Running
  else ConnState.Starting

/-- The transition table sampled on the current backend state. -/
def computeStateOf (s : BackendState) : ConnState :=
  computeState s.netmap.isSome s.prefs.loggedOut
    ((s.netmap.map (fun nm => nm.machineAuthorized)).getD false)
    s.keyExpired s.prefs.wantRunning s.haveRelayLink

/-- Modelled from the spec: `start()` — ensure a session handle exists
(discarding any previous one), then emit the current preferences and the
computed state, in that order. -/
def start (s : BackendState) : StepOut :=
  let st := computeStateOf s
  { after := { s with state := st, hasSession := true },
    notifies := [Notify.prefsN (stripKeys s.prefs), Notify.stateN st],
    calls := (if s.hasSession then [CCCall.shutdown] else []) ++ [CCCall.new] }

/-- Modelled from the spec: `logout()` — a no-op when already in NeedsLogin;
otherwise pause, issue logout, replace the session, reset the preferences to
a logged-out/not-running state, clear the network map, and notify each
discrete phase. -/
def logout (s : BackendState) : StepOut :=
  if s.state = ConnState.NeedsLogin then
    { after := s, notifies := [], calls := [] }
  else
    let cleared : Prefs :=
      { wantRunning := false, loggedOut := true, hostname := "", persist := Persist.zero }
    { after :=
        { prefs := cleared, netmap := none, state := ConnState.NeedsLogin,
          keyExpired := false, engineBlocked := false, haveRelayLink := false,
          hasSession := true },
      notifies :=
        [Notify.stateN ConnState.Stopped, Notify.prefsN cleared,
         Notify.stateN ConnState.NoState, Notify.prefsN cleared,
         Notify.stateN ConnState.NeedsLogin],
      calls := [CCCall.pause, CCCall.logout, CCCall.unpause, CCCall.shutdown, CCCall.new] }

/-- Modelled from the spec: the preference-edit wire shape — one field-set
flag per editable field plus the carried values; `ipn.MaskedPrefs` exposes no
flag for the embedded key material. -/
structure MaskedPrefs where
  wantRunningSet : Bool := false
  hostnameSet : Bool := false
  wantRunning : Bool := false
  hostname : String := ""
deriving DecidableEq, Repr

/-- Merge only the flagged fields into the current preferences; setting
WantRunning to true also clears LoggedOut (the stable-state invariant). -/
def applyMask (p : Prefs) (m : MaskedPrefs) : Prefs :=
  let p1 :=
    if m.wantRunningSet then
      { p with wantRunning := m.wantRunning,
               loggedOut := if m.wantRunning then false else p.loggedOut }
    else p
  if m.hostnameSet then { p1 with hostname := m.hostname } else p1

/-- Modelled from the spec: `EditPrefs` — merge the flagged fields,
recompute the state, issue pause/unpause/login as the transition requires,
and notify: per the repository's state-machine test the state notification
precedes the preferences notification when the state changed. Returns the
new preferences with key material redacted. -/
def editPrefs (s : BackendState) (m : MaskedPrefs) : StepOut × Prefs :=
  let p := applyMask s.prefs m
  let s1 := { s with prefs := p }
  let st := computeStateOf s1
  ({ after := { s1 with state := st },
     notifies :=
       (if st ≠ s.state then [Notify.stateN st] else []) ++ [Notify.prefsN (stripKeys p)],
     calls :=
       if st ≠ s.state then
         (if p.wantRunning then [CCCall.login, CCCall.unpause] else [CCCall.pause])
       else [] },
   stripKeys p)

/-- Modelled from the spec: the network-map arm of the control-session
status handler — store the map, derive key expiry from the map's expiry
instant and the current time, block or unblock the engine accordingly,
recompute the state, and notify on a state change. -/
def netmapHandler (s : BackendState) (nm : NetMap) (now : Int) : StepOut :=
  let expired := decide (nm.expiry ≠ 0 ∧ nm.expiry ≤ now)
  let s1 := { s with netmap := some nm, keyExpired := expired, engineBlocked := expired }
  let st := computeStateOf s1
  { after := { s1 with state := st },
    notifies := if st ≠ s.state then [Notify.stateN st] else [],
    calls := [] }

/-- Modelled from the spec: the engine-status handler — a report with a
positive relay count while Starting transitions to Running and emits one
state notification; any later positive report only records the link and
emits nothing; a zero report changes nothing. -/
def setWgengineStatus (s : BackendState) (derps : Nat) : StepOut :=
  if 0 < derps ∧ s.state = ConnState.Starting then
    { after := { s with state := ConnState.Running, haveRelayLink := true },
      notifies := [Notify.stateN ConnState.Running], calls := [] }
  else if 0 < derps then
    { after := { s with haveRelayLink := true }, notifies := [], calls := [] }
  else
    { after := s, notifies := [], calls := [] }

/-- Deliver a list of engine-status reports in order (any serialization of a
set of concurrent reports), collecting the notifications. -/
def processSignals (s : BackendState) : List Nat → BackendState × List Notify
  | [] => (s, [])
  | n :: rest =>
    let o := setWgengineStatus s n
    let r := processSignals o.after rest
    (r.1, o.notifies ++ r.2)

/-! ## Translator lemmas -/

/-- Membership in the deduplicating route collector: a route is collected iff
it occurs among the candidates and was not already seen. -/
theorem mem_dedupRoutes (rs : List Cidr) : ∀ (seen : List Cidr) (r : Cidr),
    r ∈ dedupRoutes seen rs ↔ r ∈ rs ∧ r ∉ seen := by
  induction rs with
  | nil => intro seen r; simp [dedupRoutes]
  | cons a rest ih =>
    intro seen r
    by_cases ha : a ∈ seen
    · rw [dedupRoutes, if_pos ha, ih]
      simp only [List.mem_cons]
      constructor
      · rintro ⟨hr, hn⟩; exact ⟨Or.inr hr, hn⟩
      · rintro ⟨hr | hr, hn⟩
        · exact absurd (hr ▸ ha) hn
        · exact ⟨hr, hn⟩
    · rw [dedupRoutes, if_neg ha]
      simp only [List.mem_cons, ih]
      constructor
      · rintro (rfl | ⟨hr, hn⟩)
        · exact ⟨Or.inl rfl, ha⟩
        · exact ⟨Or.inr hr, fun hx => hn (Or.inr hx)⟩
      · rintro ⟨hr | hr, hn⟩
        · exact Or.inl hr
        · by_cases hra : r = a
          · exact Or.inl hra
          · exact Or.inr ⟨hr, fun hx => hx.elim hra hn⟩

/-- The deduplicating route collector yields a duplicate-free list. -/
theorem nodup_dedupRoutes (rs : List Cidr) : ∀ seen : List Cidr,
    (dedupRoutes seen rs).Nodup := by
  induction rs with
  | nil => intro seen; simp [dedupRoutes]
  | cons a rest ih =>
    intro seen
    by_cases ha : a ∈ seen
    · rw [dedupRoutes, if_pos ha]; exact ih seen
    · rw [dedupRoutes, if_neg ha]
      refine List.nodup_cons.mpr ⟨fun hmem => ?_, ih _⟩
      exact ((mem_dedupRoutes rest (a :: seen) a).mp hmem).2 (List.mem_cons_self a seen)

/-- Membership in the HA candidate routes: exactly the primary routes of the
qualifying other peers (different node, non-empty primary routes, shared tag). -/
theorem mem_haCandidateRoutes (peer : NodeView) : ∀ (l : List NodeView) (r : Cidr),
    r ∈ haCandidateRoutes peer l ↔
      ∃ o ∈ l, o.id ≠ peer.id ∧ o.primaryRoutes ≠ [] ∧
        sharesTag peer.tags o.tags = true ∧ r ∈ o.primaryRoutes := by
  intro l
  induction l with
  | nil => simp [haCandidateRoutes]
  | cons o rest ih =>
    intro r
    simp only [haCandidateRoutes]
    by_cases h1 : o.id = peer.id
    · rw [if_pos h1, ih]
      constructor
      · rintro ⟨o', ho', h⟩; exact ⟨o', List.mem_cons_of_mem o ho', h⟩
      · rintro ⟨o', ho', hne, h⟩
        rcases List.mem_cons.mp ho' with rfl | ho'
        · exact absurd h1 hne
        · exact ⟨o', ho', hne, h⟩
    · rw [if_neg h1]
      by_cases h2 : o.primaryRoutes = []
      · rw [if_pos h2, ih]
        constructor
        · rintro ⟨o', ho', h⟩; exact ⟨o', List.mem_cons_of_mem o ho', h⟩
        · rintro ⟨o', ho', hne, hpr, h⟩
          rcases List.mem_cons.mp ho' with rfl | ho'
          · exact absurd h2 hpr
          · exact ⟨o', ho', hne, hpr, h⟩
      · by_cases h3 : sharesTag peer.tags o.tags = true
        · rw [if_neg h2, if_neg (not_not_intro h3), List.mem_append, ih]
          constructor
          · rintro (hr | ⟨o', ho', h⟩)
            · exact ⟨o, List.mem_cons_self o rest, h1, h2, h3, hr⟩
            · exact ⟨o', List.mem_cons_of_mem o ho', h⟩
          · rintro ⟨o', ho', hne, hpr, hst, hr⟩
            rcases List.mem_cons.mp ho' with rfl | ho'
            · exact Or.inl hr
            · exact Or.inr ⟨o', ho', hne, hpr, hst, hr⟩
        · rw [if_neg h2, if_pos h3, ih]
          constructor
          · rintro ⟨o', ho', h⟩; exact ⟨o', List.mem_cons_of_mem o ho', h⟩
          · rintro ⟨o', ho', hne, hpr, hst, hr⟩
            rcases List.mem_cons.mp ho' with rfl | ho'
            · exact absurd hst h3
            · exact ⟨o', ho', hne, hpr, hst, hr⟩

/-! ## Validation of the translator embedding against the repository's tests -/

/-- A node with all fields at their zero values. -/
def baseNode : NodeView :=
  { id := 0, stableID := "", key := 0, discoKey := 0, homeDERP := 0,
    isWireGuardOnly := false, expired := false, isJailed := false,
    v4MasqAddr := none, v6MasqAddr := none, addresses := [], allowedIPs := [],
    primaryRoutes := [], tags := [], capMap := [] }

/-- The node of `TestCidrIsSubnet`: addresses 100.64.0.1/32 and
fd7a:115c:a1e0::1/128. -/
def cidrTestNode : NodeView :=
  { baseNode with addresses := [⟨1, 32, false⟩, ⟨100, 128, true⟩] }

/-- The expectation table of `TestCidrIsSubnet`: default routes and the
node's own address are not subnets; multi-address routes and another node's
single address are. -/
theorem cidrIsSubnet_matches_tests :
    cidrIsSubnet cidrTestNode ⟨0, 0, false⟩ = false ∧
    cidrIsSubnet cidrTestNode ⟨0, 0, true⟩ = false ∧
    cidrIsSubnet cidrTestNode ⟨1, 32, false⟩ = false ∧
    cidrIsSubnet cidrTestNode ⟨500, 16, false⟩ = true ∧
    cidrIsSubnet cidrTestNode ⟨600, 24, false⟩ = true ∧
    cidrIsSubnet cidrTestNode ⟨2, 32, false⟩ = true := by
  decide

/-- Site A's subnet 10.100.0.0/16 in `TestHASubnetRouterAllowedIPs`. -/
def siteASubnet : Cidr := ⟨10100, 16, false⟩

/-- Site B's subnet 10.200.0.0/16. -/
def siteBSubnet : Cidr := ⟨10200, 16, false⟩

/-- Site A subnet router 1 as seen by site B subnet router 2: its own subnet
is missing from its AllowedIPs because of control's 1:1 HA pairing. -/
def siteASR1Seen : NodeView :=
  { baseNode with
    id := 1
    tags := ["tag:site-a-sr"]
    addresses := [⟨641, 32, false⟩]
    allowedIPs := [⟨641, 32, false⟩]
    primaryRoutes := [siteASubnet] }

/-- Site A subnet router 2, seen with its subnet (it is the paired one). -/
def siteASR2V : NodeView :=
  { baseNode with
    id := 2
    tags := ["tag:site-a-sr"]
    addresses := [⟨642, 32, false⟩]
    allowedIPs := [⟨642, 32, false⟩, siteASubnet]
    primaryRoutes := [siteASubnet] }

/-- Site B subnet router 1. -/
def siteBSR1V : NodeView :=
  { baseNode with
    id := 3
    tags := ["tag:site-b-sr"]
    addresses := [⟨643, 32, false⟩]
    allowedIPs := [⟨643, 32, false⟩, siteBSubnet]
    primaryRoutes := [siteBSubnet] }

/-- Site B subnet router 2 — the local (self) node of the scenario. -/
def siteBSR2V : NodeView :=
  { baseNode with
    id := 4
    tags := ["tag:site-b-sr"]
    addresses := [⟨644, 32, false⟩]
    allowedIPs := [⟨644, 32, false⟩, siteBSubnet]
    primaryRoutes := [siteBSubnet] }

/-- The peer list of the scenario (self is not among the peers). -/
def haTestPeers : List NodeView := [siteASR1Seen, siteASR2V, siteBSR1V]

/-- A self node that is not a subnet router (only its own address). -/
def nonRouterSelf : NodeView :=
  { baseNode with
    id := 99
    addresses := [⟨6499, 32, false⟩]
    allowedIPs := [⟨6499, 32, false⟩] }

/-- A peer carrying no tags but advertising a primary route. -/
def untaggedPeer : NodeView :=
  { nonRouterSelf with primaryRoutes := [⟨1099, 16, false⟩] }

/-- A peer whose tags are disjoint from every other peer's. -/
def otherTagPeer : NodeView :=
  { untaggedPeer with tags := ["tag:other"] }

/-- The expectations of `TestHASubnetRouterAllowedIPs`: the unpaired router
gains its sibling's subnet; the paired router gains nothing (already
present); a non-subnet-router self expands nothing; an untagged peer and a
peer with disjoint tags expand nothing. -/
theorem haSubnetRouterAllowedIPs_matches_tests :
    haSubnetRouterAllowedIPs (some siteBSR2V) siteASR1Seen haTestPeers = [siteASubnet] ∧
    haSubnetRouterAllowedIPs (some siteBSR2V) siteASR2V haTestPeers = [] ∧
    haSubnetRouterAllowedIPs (some nonRouterSelf) siteASR1Seen haTestPeers = [] ∧
    haSubnetRouterAllowedIPs (some siteBSR2V) untaggedPeer haTestPeers = [] ∧
    haSubnetRouterAllowedIPs (some siteBSR2V) otherTagPeer haTestPeers = [] := by
  decide

/-! ## Claims about the translator -/

/-- The peer of the C7 counterexample: its only address is 100.64.0.1/32,
its allowed-IP list holds the single address 100.64.0.2/32 of another node. -/
def c7Peer : NodeView :=
  { baseNode with
    id := 1
    stableID := "peer-1"
    discoKey := 5
    addresses := [⟨1, 32, false⟩]
    allowedIPs := [⟨2, 32, false⟩] }

/-- C7 (counterexample): the claim states that every allowed-IP entry that is
neither a default route nor a non-single-address subnet route is kept; but
the single address 100.64.0.2/32 — not one of the peer's own addresses — is
dropped when subnet-route acceptance is disabled, because `cidrIsSubnet`
classifies another node's single address as a subnet. -/
theorem allowedip_filter_counterexample :
    Cidr.isSingleIP ⟨2, 32, false⟩ = true ∧
    (⟨2, 32, false⟩ : Cidr).bits ≠ 0 ∧
    c7Peer.stableID ≠ "exit" ∧
    keepAllowedIP false "exit" c7Peer ⟨2, 32, false⟩ = false ∧
    peerAllowedIPs false "exit" none [c7Peer] c7Peer = [] := by
  decide

/-- C7 (amended): for every entry of an included peer's allowed-IP list, the
translator keeps it iff: a default-route entry requires the peer to be the
selected exit node, and a non-default entry that is not one of the peer's own
self addresses — a multi-address subnet, or a single address belonging to
another node — requires subnet-route acceptance to be enabled. -/
theorem allowedip_filter_amended (flag : Bool) (exitNode : String)
    (peer : NodeView) (aip : Cidr) (h : aip ∈ peer.allowedIPs) :
    aip ∈ peer.allowedIPs.filter (keepAllowedIP flag exitNode peer) ↔
      ((aip.bits = 0 → peer.stableID = exitNode) ∧
       ((aip.bits ≠ 0 ∧ (aip.isSingleIP = false ∨ aip ∉ peer.addresses)) → flag = true)) := by
  rw [List.mem_filter]
  simp only [h, true_and]
  unfold keepAllowedIP cidrIsSubnet
  by_cases h0 : aip.bits = 0
  · simp only [h0]
    by_cases he : peer.stableID = exitNode <;> simp [he]
  · by_cases hs : aip.isSingleIP
    · by_cases hm : aip ∈ peer.addresses
      · simp [h0, hs, hm]
      · cases flag <;> simp [h0, hs, hm]
    · cases flag <;> simp [h0, hs]

/-- A closed instance of the amended C7 theorem at the counterexample peer:
with subnet-route acceptance enabled, the foreign single address is kept. -/
theorem allowedip_filter_amended_witness :
    (⟨2, 32, false⟩ : Cidr) ∈ c7Peer.allowedIPs ∧
    ((⟨2, 32, false⟩ : Cidr) ∈
        c7Peer.allowedIPs.filter (keepAllowedIP true "exit" c7Peer) ↔
      (((⟨2, 32, false⟩ : Cidr).bits = 0 → c7Peer.stableID = "exit") ∧
       (((⟨2, 32, false⟩ : Cidr).bits ≠ 0 ∧
           (Cidr.isSingleIP ⟨2, 32, false⟩ = false ∨
            (⟨2, 32, false⟩ : Cidr) ∉ c7Peer.addresses)) → true = true))) :=
  ⟨by decide, allowedip_filter_amended true "exit" c7Peer ⟨2, 32, false⟩ (by decide)⟩

/-- C8: the HA subnet-router expansion contributes exactly the primary routes
of the other peers that share a tag with the peer and have a non-empty
primary-routes set, omitting duplicates and routes already in the peer's
allowed-IP list — and only when the self node advertises a subnet route and
the peer is tagged; when a precondition fails (or, in `WGCfg`, when
subnet-route acceptance is disabled) nothing is added. -/
theorem ha_subnet_expansion (selfN : Option NodeView) (peer : NodeView)
    (allPeers : List NodeView) (exitN : String) :
    (∀ r : Cidr,
      r ∈ haSubnetRouterAllowedIPs selfN peer allPeers ↔
        ((∃ self, selfN = some self ∧
            self.allowedIPs.any (fun aip => cidrIsSubnet self aip) = true) ∧
         peer.tags ≠ [] ∧ r ∉ peer.allowedIPs ∧
         ∃ o ∈ allPeers, o.id ≠ peer.id ∧ o.primaryRoutes ≠ [] ∧
           sharesTag peer.tags o.tags = true ∧ r ∈ o.primaryRoutes)) ∧
    (haSubnetRouterAllowedIPs selfN peer allPeers).Nodup ∧
    peerAllowedIPs true exitN selfN allPeers peer =
      peer.allowedIPs.filter (keepAllowedIP true exitN peer)
        ++ haSubnetRouterAllowedIPs selfN peer allPeers ∧
    peerAllowedIPs false exitN selfN allPeers peer =
      peer.allowedIPs.filter (keepAllowedIP false exitN peer) := by
  refine ⟨?_, ?_, rfl, by simp [peerAllowedIPs]⟩
  · intro r
    match selfN with
    | none => simp [haSubnetRouterAllowedIPs]
    | some self =>
      rw [haSubnetRouterAllowedIPs]
      by_cases hsr : self.allowedIPs.any (fun aip => cidrIsSubnet self aip) = true
      · by_cases ht : peer.tags = []
        · rw [if_neg (not_not_intro hsr), if_pos ht]
          simp only [List.not_mem_nil, false_iff]
          rintro ⟨-, ht2, -⟩
          exact ht2 ht
        · rw [if_neg (not_not_intro hsr), if_neg ht,
            mem_dedupRoutes, mem_haCandidateRoutes]
          constructor
          · rintro ⟨hc, hn⟩; exact ⟨⟨self, rfl, hsr⟩, ht, hn, hc⟩
          · rintro ⟨-, -, hn, hc⟩; exact ⟨hc, hn⟩
      · rw [if_pos hsr]
        simp only [List.not_mem_nil, false_iff]
        rintro ⟨⟨self2, hself2, hsr2⟩, -⟩
        cases hself2
        exact hsr hsr2
  · match selfN with
    | none => simp [haSubnetRouterAllowedIPs]
    | some self =>
      rw [haSubnetRouterAllowedIPs]
      by_cases hsr : self.allowedIPs.any (fun aip => cidrIsSubnet self aip) = true
      · by_cases ht : peer.tags = []
        · rw [if_neg (not_not_intro hsr), if_pos ht]; exact List.nodup_nil
        · rw [if_neg (not_not_intro hsr), if_neg ht]
          exact nodup_dedupRoutes _ _
      · rw [if_pos hsr]; exact List.nodup_nil

/-- A closed instance of the C8 theorem on the repository's HA test scenario:
site A's subnet is contributed to the unpaired router's allowed IPs via its
tag sibling. -/
theorem ha_subnet_expansion_witness :
    siteASubnet ∈ haSubnetRouterAllowedIPs (some siteBSR2V) siteASR1Seen haTestPeers :=
  ((ha_subnet_expansion (some siteBSR2V) siteASR1Seen haTestPeers "").1 siteASubnet).mpr
    ⟨⟨siteBSR2V, rfl, by decide⟩, by decide, by decide,
     siteASR2V, by decide, by decide, by decide, by decide⟩

/-- C9: `WGCfg` never returns a hard error — the error component is `none`
for every input; the peer translation is independent of the audit-log ID
parser; and a failure to parse either audit-log ID only zeroes the
network-logging parameters of the result. -/
theorem wgcfg_no_error (parse1 parse2 : String → Option Nat)
    (dpal : NodeView → String) (pk : Nat) (nm : NetworkMap) (flag : Bool)
    (exitN : String) :
    (WGCfg parse1 dpal pk nm flag exitN).2 = none ∧
    (WGCfg parse1 dpal pk nm flag exitN).1.peers =
      (WGCfg parse2 dpal pk nm flag exitN).1.peers ∧
    (∀ self, nm.selfNode = some self →
      (parse1 (dpal self) = none ∨ parse1 nm.domainAuditLogID = none) →
      (WGCfg parse1 dpal pk nm flag exitN).1.networkLogging = NetworkLogging.zero) := by
  refine ⟨rfl, rfl, ?_⟩
  intro self hself hfail
  show wgNetworkLogging parse1 nm dpal = NetworkLogging.zero
  rw [wgNetworkLogging, hself]
  dsimp only
  split_ifs with hcond
  · rcases hfail with h | h <;>
      cases h2 : parse1 (dpal self) <;>
      cases h3 : parse1 nm.domainAuditLogID <;>
      simp_all
  · rfl

/-- The self node of the C9/C10 witnesses: it carries the data-plane
audit-log capability and a non-empty audit-log ID. -/
def logSelf : NodeView :=
  { baseNode with
    id := 10
    stableID := "self"
    capMap := ["https://tailscale.com/cap/data-plane-audit-logs"] }

/-- The network map of the C9/C10 witnesses. -/
def logNm : NetworkMap :=
  { selfNode := some logSelf, addresses := [], peers := [],
    domainAuditLogID := "domain-log-id" }

/-- An audit-log ID parser that always fails. -/
def parseNever : String → Option Nat := fun _ => none

/-- An audit-log ID parser that always succeeds, yielding the ID's length. -/
def parseLen : String → Option Nat := fun s => some s.length

/-- The audit-log ID accessor of the witnesses. -/
def dpalConst : NodeView → String := fun _ => "node-log-id"

/-- A closed instance of the C9 theorem: with a failing parser the
translation still returns no error and merely zero network logging. -/
theorem wgcfg_no_error_witness :
    logNm.selfNode = some logSelf ∧
    (WGCfg parseNever dpalConst 7 logNm true "e").2 = none ∧
    (WGCfg parseNever dpalConst 7 logNm true "e").1.networkLogging = NetworkLogging.zero :=
  ⟨rfl,
   (wgcfg_no_error parseNever parseLen dpalConst 7 logNm true "e").1,
   (wgcfg_no_error parseNever parseLen dpalConst 7 logNm true "e").2.2 logSelf rfl
     (Or.inl rfl)⟩

/-- C10: the network-logging parameters of a `WGCfg` result are populated
all-or-nothing — they are non-zero only when the self node is present,
carries the data-plane audit-log capability, both audit-log IDs are
non-empty and both parse, in which case they hold exactly the two parsed IDs
and the exit-flow capability bit; and whenever either parse fails the
network-logging field stays entirely zero. -/
theorem wgcfg_network_logging_all_or_nothing (parse : String → Option Nat)
    (dpal : NodeView → String) (pk : Nat) (nm : NetworkMap) (flag : Bool)
    (exitN : String) :
    (WGCfg parse dpal pk nm flag exitN).1.networkLogging =
      wgNetworkLogging parse nm dpal ∧
    (wgNetworkLogging parse nm dpal ≠ NetworkLogging.zero →
      ∃ self, nm.selfNode = some self ∧
        self.hasCap capabilityDataPlaneAuditLogs = true ∧
        dpal self ≠ "" ∧ nm.domainAuditLogID ≠ "" ∧
        ∃ a b, parse (dpal self) = some a ∧ parse nm.domainAuditLogID = some b ∧
          wgNetworkLogging parse nm dpal =
            { nodeID := a, domainID := b,
              logExitFlowEnabled := self.hasCap nodeAttrLogExitFlows }) ∧
    (∀ self, nm.selfNode = some self →
      (parse (dpal self) = none ∨ parse nm.domainAuditLogID = none) →
      wgNetworkLogging parse nm dpal = NetworkLogging.zero) := by
  refine ⟨rfl, ?_, ?_⟩
  · intro hne
    cases hself : nm.selfNode with
    | none =>
      exact absurd (by rw [wgNetworkLogging, hself]) hne
    | some self =>
      rw [wgNetworkLogging, hself] at hne ⊢
      dsimp only at hne ⊢
      split_ifs at hne ⊢ with hcond
      · cases h2 : parse (dpal self) with
        | none =>
          cases h3 : parse nm.domainAuditLogID <;> rw [h2, h3] at hne <;>
            exact absurd rfl hne
        | some a =>
          cases h3 : parse nm.domainAuditLogID with
          | none => rw [h2, h3] at hne; exact absurd rfl hne
          | some b =>
            exact ⟨self, rfl, hcond.1, hcond.2.1, hcond.2.2, a, b, h2, rfl, rfl⟩
      · exact absurd rfl hne
  · intro self hself hfail
    rw [wgNetworkLogging, hself]
    dsimp only
    split_ifs with hcond
    · rcases hfail with h | h <;>
        cases h2 : parse (dpal self) <;>
        cases h3 : parse nm.domainAuditLogID <;>
        simp_all
    · rfl

/-- A closed instance of the C10 theorem: with a succeeding parser the
network-logging parameters hold exactly the parsed IDs. -/
theorem wgcfg_network_logging_witness :
    wgNetworkLogging parseLen logNm dpalConst ≠ NetworkLogging.zero ∧
    (∃ self, logNm.selfNode = some self ∧
      self.hasCap capabilityDataPlaneAuditLogs = true ∧
      dpalConst self ≠ "" ∧ logNm.domainAuditLogID ≠ "" ∧
      ∃ a b, parseLen (dpalConst self) = some a ∧
        parseLen logNm.domainAuditLogID = some b ∧
        wgNetworkLogging parseLen logNm dpalConst =
          { nodeID := a, domainID := b,
            logExitFlowEnabled := self.hasCap nodeAttrLogExitFlows }) :=
  ⟨by decide,
   (wgcfg_network_logging_all_or_nothing parseLen dpalConst 7 logNm true "e").2.1
     (by decide)⟩

/-! ## Claims about the backend orchestrator -/

/-- A fresh (logged-out) profile before the first `start()`: logged out, not
wanting to run, no network map, no session, state NoState. -/
def freshBackend : BackendState :=
  { prefs := { wantRunning := false, loggedOut := true, hostname := "",
               persist := Persist.zero },
    netmap := none, state := ConnState.NoState, keyExpired := false,
    engineBlocked := false, haveRelayLink := false, hasSession := false }

/-- C1: while logged out, `start()` emits exactly two notifications — the
(redacted) preferences with LoggedOut true and WantRunning false first, then
the NeedsLogin state — and a second `start()` while still logged out emits
the same two notifications in the same order. -/
theorem start_fresh_profile (s : BackendState)
    (h1 : s.prefs.loggedOut = true) (h2 : s.prefs.wantRunning = false) :
    (start s).notifies =
      [Notify.prefsN (stripKeys s.prefs), Notify.stateN ConnState.NeedsLogin] ∧
    (stripKeys s.prefs).loggedOut = true ∧
    (stripKeys s.prefs).wantRunning = false ∧
    (start s).after.state = ConnState.NeedsLogin ∧
    (start (start s).after).notifies = (start s).notifies := by
  have hst : computeStateOf s = ConnState.NeedsLogin := by
    simp [computeStateOf, computeState, h1]
  refine ⟨?_, h1, h2, ?_, rfl⟩ <;> simp [start, hst]

/-- A closed instance of the C1 theorem at the fresh profile. -/
theorem start_fresh_profile_witness :
    freshBackend.prefs.loggedOut = true ∧ freshBackend.prefs.wantRunning = false ∧
    ((start freshBackend).notifies =
        [Notify.prefsN (stripKeys freshBackend.prefs),
         Notify.stateN ConnState.NeedsLogin] ∧
      (stripKeys freshBackend.prefs).loggedOut = true ∧
      (stripKeys freshBackend.prefs).wantRunning = false ∧
      (start freshBackend).after.state = ConnState.NeedsLogin ∧
      (start (start freshBackend).after).notifies = (start freshBackend).notifies) :=
  ⟨rfl, rfl, start_fresh_profile freshBackend rfl rfl⟩

/-- C2: `logout()` while already in NeedsLogin is a true no-op — zero
control-session commands, zero notifications, state and preferences (and the
whole backend state) unchanged. -/
theorem logout_needs_login_noop (s : BackendState)
    (h : s.state = ConnState.NeedsLogin) :
    logout s = { after := s, notifies := [], calls := [] } := by
  rw [logout, if_pos h]

/-- A closed instance of the C2 theorem right after a fresh start. -/
theorem logout_needs_login_noop_witness :
    (start freshBackend).after.state = ConnState.NeedsLogin ∧
    logout (start freshBackend).after =
      { after := (start freshBackend).after, notifies := [], calls := [] } :=
  ⟨rfl, logout_needs_login_noop (start freshBackend).after rfl⟩

/-- C3: a network map whose expiry is in the past always moves the backend
to NeedsLogin with the engine blocked, whatever the prior state; a
subsequently received map with a future expiry and a machine-authorized self
node restores Starting (or Running, when a relay link is already up) with
the engine unblocked. -/
theorem netmap_expiry_transitions (s : BackendState) (nm nm2 : NetMap)
    (now now2 : Int)
    (h1 : nm.expiry ≠ 0) (h2 : nm.expiry ≤ now)
    (h3 : now2 < nm2.expiry) (h4 : nm2.machineAuthorized = true)
    (h5 : s.prefs.loggedOut = false) (h6 : s.prefs.wantRunning = true) :
    (netmapHandler s nm now).after.state = ConnState.NeedsLogin ∧
    (netmapHandler s nm now).after.engineBlocked = true ∧
    ((netmapHandler (netmapHandler s nm now).after nm2 now2).after.state =
        ConnState.Starting ∨
     (netmapHandler (netmapHandler s nm now).after nm2 now2).after.state =
        ConnState.Running) ∧
    (netmapHandler (netmapHandler s nm now).after nm2 now2).after.engineBlocked = false := by
  have hnexp2 : ¬(nm2.expiry ≠ 0 ∧ nm2.expiry ≤ now2) := by
    rintro ⟨-, hle⟩; omega
  refine ⟨?_, ?_, ?_, ?_⟩
  · simp [netmapHandler, computeStateOf, computeState, h1, h2, h5]
  · simp [netmapHandler, h1, h2]
  · cases hr : s.haveRelayLink <;>
      simp [netmapHandler, computeStateOf, computeState, h1, h2, h4, h5, h6,
        hnexp2, hr]
  · simp [netmapHandler, hnexp2]

/-- The backend of the C3/C4/C5 witnesses: logged in with a valid map,
wanting to run, in Starting. -/
def startingBackend : BackendState :=
  { prefs := { wantRunning := true, loggedOut := false, hostname := "",
               persist := Persist.zero },
    netmap := some { expiry := 0, machineAuthorized := true },
    state := ConnState.Starting, keyExpired := false, engineBlocked := false,
    haveRelayLink := false, hasSession := true }

/-- A closed instance of the C3 theorem: expiry 5 at time 10 expires the
key; a map expiring at 100 restores it. -/
theorem netmap_expiry_transitions_witness :
    ((5 : Int) ≠ 0 ∧ (5 : Int) ≤ 10 ∧ (10 : Int) < 100 ∧
     NetMap.machineAuthorized ⟨100, true⟩ = true ∧
     startingBackend.prefs.loggedOut = false ∧
     startingBackend.prefs.wantRunning = true) ∧
    ((netmapHandler startingBackend ⟨5, true⟩ 10).after.state = ConnState.NeedsLogin ∧
     (netmapHandler startingBackend ⟨5, true⟩ 10).after.engineBlocked = true ∧
     ((netmapHandler (netmapHandler startingBackend ⟨5, true⟩ 10).after ⟨100, true⟩ 10).after.state =
         ConnState.Starting ∨
      (netmapHandler (netmapHandler startingBackend ⟨5, true⟩ 10).after ⟨100, true⟩ 10).after.state =
         ConnState.Running) ∧
     (netmapHandler (netmapHandler startingBackend ⟨5, true⟩ 10).after ⟨100, true⟩ 10).after.engineBlocked =
       false) :=
  ⟨⟨by decide, by decide, by decide, rfl, rfl, rfl⟩,
   netmap_expiry_transitions startingBackend ⟨5, true⟩ ⟨100, true⟩ 10 10
     (by decide) (by decide) (by decide) rfl rfl rfl⟩

/-- Once Running, engine-status reports change neither the state nor emit
notifications. -/
theorem processSignals_running (sigs : List Nat) : ∀ s : BackendState,
    s.state = ConnState.Running →
    (processSignals s sigs).1.state = ConnState.Running ∧
    (processSignals s sigs).2 = [] := by
  induction sigs with
  | nil => intro s h; exact ⟨h, rfl⟩
  | cons n rest ih =>
    intro s h
    by_cases hn : 0 < n
    · have hcond : ¬(0 < n ∧ s.state = ConnState.Starting) := by
        rintro ⟨-, hst⟩
        rw [h] at hst
        cases hst
      simp only [processSignals, setWgengineStatus, if_neg hcond, if_pos hn]
      have hrest := ih { s with haveRelayLink := true } h
      exact ⟨hrest.1, by simpa using hrest.2⟩
    · have hcond : ¬(0 < n ∧ s.state = ConnState.Starting) := fun hc => hn hc.1
      simp only [processSignals, setWgengineStatus, if_neg hcond, if_neg hn]
      have hrest := ih s h
      exact ⟨hrest.1, by simpa using hrest.2⟩

/-- From Starting, any delivery order of engine-status reports containing at
least one positive relay count ends Running and emits exactly one state
notification. -/
theorem processSignals_starting (sigs : List Nat) : ∀ s : BackendState,
    s.state = ConnState.Starting → (∃ n ∈ sigs, 0 < n) →
    (processSignals s sigs).1.state = ConnState.Running ∧
    (processSignals s sigs).2 = [Notify.stateN ConnState.Running] := by
  induction sigs with
  | nil =>
    intro s h hex
    rcases hex with ⟨n, hn, -⟩
    exact absurd hn (List.not_mem_nil n)
  | cons n rest ih =>
    intro s h hex
    by_cases hn : 0 < n
    · have hcond : 0 < n ∧ s.state = ConnState.Starting := ⟨hn, h⟩
      simp only [processSignals, setWgengineStatus, if_pos hcond]
      have hrest := processSignals_running rest
        { s with state := ConnState.Running, haveRelayLink := true } rfl
      exact ⟨hrest.1, by simp [hrest.2]⟩
    · have hcond : ¬(0 < n ∧ s.state = ConnState.Starting) := fun hc => hn hc.1
      simp only [processSignals, setWgengineStatus, if_neg hcond, if_neg hn]
      have hex2 : ∃ m ∈ rest, 0 < m := by
        rcases hex with ⟨m, hm, hmp⟩
        rcases List.mem_cons.mp hm with rfl | hm2
        · exact absurd hmp hn
        · exact ⟨m, hm2, hmp⟩
      have hrest := ih s h hex2
      exact ⟨hrest.1, by simpa using hrest.2⟩

/-- C4: an engine relay-link report with a positive relay count observed
while Starting (with WantRunning true) moves the backend to Running with
exactly one state notification, however many reports are delivered and in
whatever serialization order — duplicate or repeated reports after Running
emit nothing further. -/
theorem engine_relay_rising_edge (s : BackendState) (sigs : List Nat)
    (h1 : s.state = ConnState.Starting) (h2 : s.prefs.wantRunning = true)
    (h3 : ∃ n ∈ sigs, 0 < n) :
    (processSignals s sigs).1.state = ConnState.Running ∧
    (processSignals s sigs).2 = [Notify.stateN ConnState.Running] :=
  processSignals_starting sigs s h1 h3

/-- A closed instance of the C4 theorem: ninety-nine zero reports around a
single positive one (the stress scenario of `TestWGEngineStatusRace`)
produce exactly one Running notification. -/
theorem engine_relay_rising_edge_witness :
    (startingBackend.state = ConnState.Starting ∧
     startingBackend.prefs.wantRunning = true ∧
     ∃ n ∈ List.replicate 50 0 ++ [1] ++ List.replicate 49 0, 0 < n) ∧
    ((processSignals startingBackend
        (List.replicate 50 0 ++ [1] ++ List.replicate 49 0)).1.state =
       ConnState.Running ∧
     (processSignals startingBackend
        (List.replicate 50 0 ++ [1] ++ List.replicate 49 0)).2 =
       [Notify.stateN ConnState.Running]) :=
  ⟨⟨rfl, rfl, by decide⟩,
   engine_relay_rising_edge startingBackend
     (List.replicate 50 0 ++ [1] ++ List.replicate 49 0) rfl rfl (by decide)⟩

/-- The preference edit of the C5 scenario: flip WantRunning off. -/
def stopMask : MaskedPrefs := { wantRunningSet := true, wantRunning := false }

/-- C5 (counterexample): flipping WantRunning off while Starting changes the
state to Stopped, and the backend emits the STATE notification first and the
preferences notification second — not preferences first as the claim states
(the quirk the design notes flag and `TestStateMachine` asserts). -/
theorem editprefs_order_counterexample :
    (editPrefs startingBackend stopMask).1.after.state = ConnState.Stopped ∧
    startingBackend.state ≠ ConnState.Stopped ∧
    (editPrefs startingBackend stopMask).1.notifies =
      [Notify.stateN ConnState.Stopped,
       Notify.prefsN (stripKeys (applyMask startingBackend.prefs stopMask))] := by
  decide

/-- C5 (amended): every accepted preference edit that changes the connection
state emits exactly two notifications — the state notification first, the
preferences notification after it, in that order. -/
theorem editprefs_state_then_prefs (s : BackendState) (m : MaskedPrefs)
    (h : computeStateOf { s with prefs := applyMask s.prefs m } ≠ s.state) :
    (editPrefs s m).1.notifies =
      [Notify.stateN (computeStateOf { s with prefs := applyMask s.prefs m }),
       Notify.prefsN (stripKeys (applyMask s.prefs m))] := by
  simp [editPrefs, h]

/-- A closed instance of the amended C5 theorem at the WantRunning flip. -/
theorem editprefs_state_then_prefs_witness :
    computeStateOf { startingBackend with
      prefs := applyMask startingBackend.prefs stopMask } ≠ startingBackend.state ∧
    (editPrefs startingBackend stopMask).1.notifies =
      [Notify.stateN (computeStateOf { startingBackend with
         prefs := applyMask startingBackend.prefs stopMask }),
       Notify.prefsN (stripKeys (applyMask startingBackend.prefs stopMask))] :=
  ⟨by decide, editprefs_state_then_prefs startingBackend stopMask (by decide)⟩

/-- C6: no preference edit can touch the stored key material — the editable
field mask (like Go's `ipn.MaskedPrefs`) carries only non-identity fields,
so the private key, the old private key and the network-lock key in the
backend's preferences survive every edit unchanged; the preferences value
returned to the caller additionally has its key material redacted to zero. -/
theorem editprefs_preserves_key_material (s : BackendState) (m : MaskedPrefs) :
    (editPrefs s m).1.after.prefs.persist = s.prefs.persist ∧
    (editPrefs s m).2.persist = Persist.zero := by
  constructor
  · show (applyMask s.prefs m).persist = s.prefs.persist
    unfold applyMask
    by_cases h1 : m.wantRunningSet <;> by_cases h2 : m.hostnameSet <;>
      simp [h1, h2]
  · rfl

/-- The pause/unpause/login command sequences of a preference edit match the
ones `TestStateMachine` asserts: flipping WantRunning off pauses; flipping
it back on logs in and unpauses. -/
theorem editPrefs_calls_match_test :
    (editPrefs startingBackend stopMask).1.calls = [CCCall.pause] ∧
    (editPrefs (editPrefs startingBackend stopMask).1.after
       { wantRunningSet := true, wantRunning := true }).1.calls =
      [CCCall.login, CCCall.unpause] ∧
    (editPrefs (editPrefs startingBackend stopMask).1.after
       { wantRunningSet := true, wantRunning := true }).1.notifies =
      [Notify.stateN ConnState.Starting,
       Notify.prefsN { wantRunning := true, loggedOut := false, hostname := "",
                       persist := Persist.zero }] := by
  decide

/-- The full (non-no-op) logout path matches the notification and command
sequence `TestStateMachine` asserts: Stopped, cleared preferences, NoState,
cleared preferences again, NeedsLogin — with pause, logout, unpause,
shutdown and a replacement session. -/
theorem logout_full_path_matches_test :
    (logout startingBackend).notifies =
      [Notify.stateN ConnState.Stopped,
       Notify.prefsN { wantRunning := false, loggedOut := true, hostname := "",
                       persist := Persist.zero },
       Notify.stateN ConnState.NoState,
       Notify.prefsN { wantRunning := false, loggedOut := true, hostname := "",
                       persist := Persist.zero },
       Notify.stateN ConnState.NeedsLogin] ∧
    (logout startingBackend).calls =
      [CCCall.pause, CCCall.logout, CCCall.unpause, CCCall.shutdown, CCCall.new] ∧
    (logout startingBackend).after.state = ConnState.NeedsLogin := by
  decide

/-- The peer-inclusion rule of `WGCfg` on concrete nodes: a peer with
neither disco key nor DERP home nor direct WireGuard is skipped, an expired
peer is skipped, a reachable peer is kept. -/
theorem wgcfg_peer_skip_cases :
    includePeer baseNode = false ∧
    includePeer { baseNode with discoKey := 5, expired := true } = false ∧
    includePeer { baseNode with homeDERP := 7 } = true := by
  decide
